import Mathlib

/-!
Verification of the MetaDesk session and state-synchronization subsystem.

The server-side replicated room state (`OfficeState` in
`src/server/rooms/schema/OfficeState.ts`) and its command pipeline
(`src/server/rooms/commands/*.ts`, `src/server/rooms/MetaDesk.ts`) are
embedded shallowly: JS `Map`s become association lists over `String`
keys, JS `Set`s become duplicate-free `List String` with the JS
membership-checked `add`/`delete` operations, and each Colyseus command
class's `execute` becomes a pure state-transformer taking the invoking
client's session identifier and the message payload as arguments.
Wall-clock reads (`new Date().getTime()`) and random draws
(`Math.random()`) are passed in as explicit arguments.
-/

namespace MetaDesk

/-- Association-list model of a JS `Map<string, V>`: `get` returns the
first binding of the key. -/
def mapGet {V : Type} (m : List (String × V)) (k : String) : Option V :=
  match m with
  | [] => none
  | (k₁, v) :: rest => if k₁ = k then some v else mapGet rest k

/-- JS `Map.set`: replace the binding if the key is present, otherwise
append a new binding. -/
def mapSet {V : Type} (m : List (String × V)) (k : String) (v : V) : List (String × V) :=
  match m with
  | [] => [(k, v)]
  | (k₁, v₁) :: rest => if k₁ = k then (k, v) :: rest else (k₁, v₁) :: mapSet rest k v

/-- JS `Map.delete`: remove the binding of the key, if any. -/
def mapDelete {V : Type} (m : List (String × V)) (k : String) : List (String × V) :=
  match m with
  | [] => []
  | (k₁, v₁) :: rest => if k₁ = k then rest else (k₁, v₁) :: mapDelete rest k

/-- JS `Map.has`. -/
def mapHas {V : Type} (m : List (String × V)) (k : String) : Bool :=
  (mapGet m k).isSome

/-- JS `Set.add`: inserting a member that is already present is a no-op. -/
def setAdd (s : List String) (x : String) : List String :=
  if x ∈ s then s else s ++ [x]

/-- JS `Set.delete`. -/
def setDelete (s : List String) (x : String) : List String :=
  s.erase x

/-- `Player` schema from `src/server/rooms/schema/OfficeState.ts`. The
random spawn coordinates of the constructor are irrelevant to the claims;
a `Player` value is always supplied explicitly here. -/
structure Player where
  name : String
  x : Int
  y : Int
  anim : String
  readyToConnect : Bool
  videoConnected : Bool
deriving DecidableEq, Repr

/-- `Computer` schema: a set of connected session identifiers. -/
structure Computer where
  connectedUser : List String
deriving DecidableEq, Repr

/-- `Whiteboard` schema: a generated collaboration-surface identifier plus
a set of connected session identifiers. -/
structure Whiteboard where
  roomId : String
  connectedUser : List String
deriving DecidableEq, Repr

/-- `ChatMessage` schema. -/
structure ChatMessage where
  author : String
  createdAt : Nat
  content : String
deriving DecidableEq, Repr

/-- `OfficeState` schema: the authoritative replicated room state. -/
structure OfficeState where
  players : List (String × Player)
  computers : List (String × Computer)
  whiteboards : List (String × Whiteboard)
  chatMessages : List ChatMessage
deriving DecidableEq, Repr

namespace PlayerUpdateCommand

/-- `PlayerUpdateCommand.execute` from
`src/server/rooms/commands/PlayerUpdateCommand.ts`: look up the invoking
player by session id; if absent return, else overwrite x, y, anim. -/
def execute (st : OfficeState) (sessionId : String) (x y : Int) (anim : String) : OfficeState :=
  match mapGet st.players sessionId with
  | none => st
  | some p =>
      { st with players := mapSet st.players sessionId { p with x := x, y := y, anim := anim } }

end PlayerUpdateCommand

namespace PlayerUpdateNameCommand

/-- `PlayerUpdateNameCommand.execute` from
`src/server/rooms/commands/PlayerUpdateNameCommand.ts`. -/
def execute (st : OfficeState) (sessionId : String) (name : String) : OfficeState :=
  match mapGet st.players sessionId with
  | none => st
  | some p => { st with players := mapSet st.players sessionId { p with name := name } }

end PlayerUpdateNameCommand

namespace ChatMessageUpdateCommand

/-- `ChatMessageUpdateCommand.execute` from
`src/server/rooms/commands/ChatMessageUpdateCommand.ts`: if the invoking
player is absent return; otherwise `shift()` the log when its length is
already at least 100, then push the new message. `new Date().getTime()` is
the explicit `now` argument. -/
def execute (st : OfficeState) (sessionId : String) (content : String) (now : Nat) : OfficeState :=
  match mapGet st.players sessionId with
  | none => st
  | some player =>
      let msgs := if st.chatMessages.length ≥ 100 then st.chatMessages.tail else st.chatMessages
      { st with chatMessages :=
          msgs ++ [{ author := player.name, createdAt := now, content := content }] }

end ChatMessageUpdateCommand

namespace ComputerAddUserCommand

/-- `ComputerAddUserCommand.execute` from
`src/server/rooms/commands/ComputerUpdateArrayCommand.ts`
(`src/unnamed/part_006`): look up the computer by id; if absent or the
session id is already connected return, else add the session id. The
players map is not consulted. -/
def execute (st : OfficeState) (sessionId : String) (computerId : String) : OfficeState :=
  match mapGet st.computers computerId with
  | none => st
  | some computer =>
      if sessionId ∈ computer.connectedUser then st
      else
        let computer₂ := { computer with connectedUser := setAdd computer.connectedUser sessionId }
        { st with computers := mapSet st.computers computerId computer₂ }

end ComputerAddUserCommand

namespace ComputerRemoveUserCommand

/-- `ComputerRemoveUserCommand.execute` from the same file: look up the
computer; if absent return; delete the session id only when present. -/
def execute (st : OfficeState) (sessionId : String) (computerId : String) : OfficeState :=
  match mapGet st.computers computerId with
  | none => st
  | some computer =>
      if sessionId ∈ computer.connectedUser then
        let computer₂ := { computer with connectedUser := setDelete computer.connectedUser sessionId }
        { st with computers := mapSet st.computers computerId computer₂ }
      else st

end ComputerRemoveUserCommand

namespace WhiteboardAddUserCommand

/-- `WhiteboardAddUserCommand.execute` from
`src/server/rooms/commands/WhiteboardUpdateArrayCommand.ts`; identical
shape to the computer variant. -/
def execute (st : OfficeState) (sessionId : String) (whiteboardId : String) : OfficeState :=
  match mapGet st.whiteboards whiteboardId with
  | none => st
  | some whiteboard =>
      if sessionId ∈ whiteboard.connectedUser then st
      else
        let whiteboard₂ := { whiteboard with connectedUser := setAdd whiteboard.connectedUser sessionId }
        { st with whiteboards := mapSet st.whiteboards whiteboardId whiteboard₂ }

end WhiteboardAddUserCommand

namespace WhiteboardRemoveUserCommand

/-- `WhiteboardRemoveUserCommand.execute` from the same file. -/
def execute (st : OfficeState) (sessionId : String) (whiteboardId : String) : OfficeState :=
  match mapGet st.whiteboards whiteboardId with
  | none => st
  | some whiteboard =>
      if sessionId ∈ whiteboard.connectedUser then
        let whiteboard₂ := { whiteboard with connectedUser := setDelete whiteboard.connectedUser sessionId }
        { st with whiteboards := mapSet st.whiteboards whiteboardId whiteboard₂ }
      else st

end WhiteboardRemoveUserCommand

/-- `MetaDesk.onLeave` from `src/server/rooms/MetaDesk.ts` (lines
160-164, identical in `SkyOffice.ts`): delete the departing session id
from the players map when present; nothing else is touched. -/
def onLeave (st : OfficeState) (sessionId : String) : OfficeState :=
  if mapHas st.players sessionId then
    { st with players := mapDelete st.players sessionId }
  else st

end MetaDesk

namespace MetaDesk

/-- The fixed 62-character alphabet of `getRoomId` in
`src/server/rooms/schema/OfficeState.ts`. -/
def characters : List Char :=
  "ABCDEFGHIJKLMNOPQRSTUVWXYZabcdefghijklmnopqrstuvwxyz0123456789".toList

/-- One pass of the generation loop of `getRoomId`: twelve draws
`Math.floor(Math.random() * charactersLength)` (each in `[0, 61]`) are
mapped through `characters.charAt`. The draws are the explicit argument. -/
def candidateOf (draws : List Nat) : String :=
  String.mk (draws.map (fun i => characters.getD i 'A'))

/-- `getRoomId`: build a candidate from the next block of random draws; if
it is not in the process-wide `whiteboardRoomIds` set, register and return
it, else recurse on the remaining randomness. The unbounded recursion of
the source is modelled by recursing down the (finite) list of draw blocks,
returning `none` if it is exhausted. -/
def getRoomId (used : List String) : List (List Nat) → Option (String × List String)
  | [] => none
  | draws :: rest =>
      let result := candidateOf draws
      if result ∈ used then getRoomId used rest
      else some (result, setAdd used result)

/-- `MetaDesk.onJoin` (state effect): `this.state.players.set(client.sessionId,
new Player())`; the freshly constructed `Player` is the explicit argument. -/
def onJoin (st : OfficeState) (sessionId : String) (p : Player) : OfficeState :=
  { st with players := mapSet st.players sessionId p }

/-- `MetaDesk.onAuth` from `src/server/rooms/MetaDesk.ts` lines 140-149:
no stored password admits everyone; with a stored password, a missing
provided password is rejected, and otherwise the result is
`bcrypt.compare(provided, storedHash)`, modelled by the abstract
`compare` oracle (bcrypt is an external library). -/
def onAuth (compare : String → String → Bool) (storedHash : Option String)
    (provided : Option String) : Bool :=
  match storedHash with
  | none => true
  | some h =>
      match provided with
      | none => false
      | some p => compare p h

/-- `MetaDesk.maxClients = 16` (`src/server/rooms/MetaDesk.ts` line 25;
also `InstantMetaDesk.maxClients` in `src/unnamed/part_005` line 19). -/
def maxClients : Nat := 16

/-- Admission outcome taxonomy of spec section 7. -/
inductive JoinError where
  | capacity
  | auth
deriving DecidableEq, Repr

/-- A room as the admission pipeline sees it: the stored (hashed) access
secret and the replicated state. -/
structure RoomHandle where
  password : Option String
  state : OfficeState
deriving DecidableEq, Repr

/-- Modelled from the spec: the Colyseus admission pipeline around the
repository's `onAuth`/`onJoin`/`maxClients` is framework code absent from
the sources; per spec sections 4.3 and 7 a join beyond capacity is
rejected with a capacity error (not queued), the access-secret check runs
before a Participant is created, and a failed check is a rejection. The
repository supplies `maxClients = 16`, `onAuth` and `onJoin`. -/
def tryJoin (compare : String → String → Bool) (room : RoomHandle) (sessionId : String)
    (provided : Option String) (p : Player) : Except JoinError RoomHandle :=
  if room.state.players.length ≥ maxClients then .error .capacity
  else if onAuth compare room.password provided then
    .ok { room with state := onJoin room.state sessionId p }
  else .error .auth

/-- Sequential admission of a list of session identifiers (each with no
provided secret); stops at the first rejection. -/
def joinAll (compare : String → String → Bool) (room : RoomHandle) :
    List String → Except JoinError RoomHandle
  | [] => .ok room
  | sid :: rest =>
      match tryJoin compare room sid none
        { name := "", x := 0, y := 0, anim := "", readyToConnect := false,
          videoConnected := false } with
      | .error e => .error e
      | .ok room₂ => joinAll compare room₂ rest

end MetaDesk

namespace Network

/-- The client-side connection flags consulted by the Command-submission
methods of `src/client/src/services/Network.ts`: `this.ready`,
`this.room` (presence of the Colyseus room object), `this.connecting`,
`this.disconnecting`. -/
structure ClientNetState where
  ready : Bool
  hasRoom : Bool
  connecting : Bool
  disconnecting : Bool
deriving DecidableEq, Repr

/-- Observable effect of one submission method: the message tags sent over
the room channel, the local Phaser events emitted, and whether any failure
was signalled to the caller. Every method in the source returns `void` and
wraps its send in a `try`/`catch` that only logs, so no failure is ever
signalled. -/
structure MethodEffect where
  channelSends : List String
  localEvents : List String
  failureSignalled : Bool
deriving DecidableEq, Repr

/-- `Network.updatePlayer` (lines 615-622): guarded by
`if (!this.ready || !this.room || this.connecting || this.disconnecting) return`,
then `room.send(UPDATE_PLAYER, ...)` inside `try`/`catch` that logs. -/
def updatePlayer (st : ClientNetState) : MethodEffect :=
  if !st.ready || !st.hasRoom || st.connecting || st.disconnecting then
    { channelSends := [], localEvents := [], failureSignalled := false }
  else
    { channelSends := ["UPDATE_PLAYER"], localEvents := [], failureSignalled := false }

/-- `Network.updatePlayerName`: same guard, sends `UPDATE_PLAYER_NAME`. -/
def updatePlayerName (st : ClientNetState) : MethodEffect :=
  if !st.ready || !st.hasRoom || st.connecting || st.disconnecting then
    { channelSends := [], localEvents := [], failureSignalled := false }
  else
    { channelSends := ["UPDATE_PLAYER_NAME"], localEvents := [], failureSignalled := false }

/-- `Network.readyToConnect`: same guard, then sends `READY_TO_CONNECT`
and emits `MY_PLAYER_READY`. -/
def readyToConnect (st : ClientNetState) : MethodEffect :=
  if !st.ready || !st.hasRoom || st.connecting || st.disconnecting then
    { channelSends := [], localEvents := [], failureSignalled := false }
  else
    { channelSends := ["READY_TO_CONNECT"], localEvents := ["MY_PLAYER_READY"],
      failureSignalled := false }

/-- `Network.videoConnected` (lines 646-649): no readiness guard at all —
`this.room?.send(VIDEO_CONNECTED)` sends whenever the room object exists,
and `MY_PLAYER_VIDEO_CONNECTED` is emitted unconditionally. -/
def videoConnected (st : ClientNetState) : MethodEffect :=
  { channelSends := if st.hasRoom then ["VIDEO_CONNECTED"] else [],
    localEvents := ["MY_PLAYER_VIDEO_CONNECTED"],
    failureSignalled := false }

/-- `Network.maxRetries = 10` (`src/client/src/services/Network.ts`). -/
def maxRetries : Nat := 10

/-- `Network.retryDelay = 1000` milliseconds. -/
def retryDelay : ℚ := 1000

/-- The delay computed by `connectWithRetry` before retry number
`attempt + 1`:
`attempt === 1 ? 1000 : Math.min(this.retryDelay * Math.pow(1.5, attempt - 1), 8000)`.
All values involved are small dyadic rationals, so IEEE doubles compute
them exactly and `ℚ` is a faithful model. -/
def backoffDelay (attempt : Nat) : ℚ :=
  if attempt = 1 then 1000 else min (retryDelay * (3 / 2) ^ (attempt - 1)) 8000

/-- What the `catch` branch of `connectWithRetry` schedules. -/
inductive RetryAction where
  | retryAfter (nextAttempt : Nat) (delayMs : ℚ)
  | backgroundRestart (restartAttempt : Nat) (delayMs : ℚ)
  | reportTerminalFailure
deriving DecidableEq, Repr

/-- The `catch` branch of `Network.connectWithRetry` (lines 90-119): below
`maxRetries` it awaits `backoffDelay attempt` and recurses with
`attempt + 1`; at `maxRetries` it logs, schedules
`setTimeout(() => this.connectWithRetry(1), 10000)` and clears the
remembered room target — it never signals a terminal failure to any
caller. -/
def onConnectAttemptFailure (attempt : Nat) : RetryAction :=
  if attempt < maxRetries then .retryAfter (attempt + 1) (backoffDelay attempt)
  else .backgroundRestart 1 10000

end Network

namespace WebRTC

/-- ASCII decimal digit, by UTF-16 code unit. -/
def isDigitCode (c : Nat) : Bool := 48 ≤ c && c ≤ 57

/-- ASCII uppercase letter. -/
def isUpperCode (c : Nat) : Bool := 65 ≤ c && c ≤ 90

/-- ASCII lowercase letter. -/
def isLowerCode (c : Nat) : Bool := 97 ≤ c && c ≤ 122

/-- Simple lowercase folding of an ASCII code unit, as JS regex
case-insensitive canonicalization acts on the class `[0-9a-z]`
(non-ASCII code units never canonicalize into ASCII without the `u`
flag). -/
def toLowerCode (c : Nat) : Nat := if 65 ≤ c && c ≤ 90 then c + 32 else c

/-- `WebRTC.replaceInvalidId`, first snapshot
(`src/client/src/web/WebRTC.ts` lines 114-116):
`userId.replace(/[^a-zA-Z0-9]/g, "G")`. Strings are modelled as lists of
UTF-16 code units; 71 is the code of `G`. -/
def replaceInvalidId (userId : List Nat) : List Nat :=
  userId.map (fun c => if isLowerCode c || isUpperCode c || isDigitCode c then c else 71)

/-- `WebRTC.replaceInvalidId`, second snapshot (lines 327-329):
`userId.replace(/[^0-9a-z]/gi, "G")` — the `i` flag matches a letter when
its case folding lies in `a`-`z`. -/
def replaceInvalidIdCI (userId : List Nat) : List Nat :=
  userId.map (fun c => if isDigitCode c || isLowerCode (toLowerCode c) then c else 71)

/-- An output code unit of the sanitizers: ASCII alphanumeric. -/
def isAlnumCode (c : Nat) : Bool := isLowerCode c || isUpperCode c || isDigitCode c

end WebRTC

namespace MetaDesk

/-- Sequential chat appends: fold `ChatMessageUpdateCommand.execute` over a
list of message contents, all sent by one session at one timestamp. -/
def appendSeq (st : OfficeState) (sid : String) (contents : List String) (now : Nat) :
    OfficeState :=
  contents.foldl (fun s c => ChatMessageUpdateCommand.execute s sid c now) st

theorem mapGet_mapSet_self {V : Type} (m : List (String × V)) (k : String) (v : V) :
    mapGet (mapSet m k v) k = some v := by
  induction m with
  | nil => simp [mapSet, mapGet]
  | cons hd tl ih =>
      obtain ⟨k₁, v₁⟩ := hd
      by_cases h : k₁ = k
      · simp [mapSet, mapGet, h]
      · simp [mapSet, mapGet, h, ih]

theorem mapGet_mapSet_ne {V : Type} (m : List (String × V)) (k k₂ : String) (v : V)
    (h : k₂ ≠ k) : mapGet (mapSet m k v) k₂ = mapGet m k₂ := by
  induction m with
  | nil => simp [mapSet, mapGet, Ne.symm h]
  | cons hd tl ih =>
      obtain ⟨k₁, v₁⟩ := hd
      by_cases h₁ : k₁ = k
      · subst h₁
        simp [mapSet, mapGet, Ne.symm h]
      · simp [mapSet, mapGet, h₁, ih]

theorem mapGet_mapDelete_ne {V : Type} (m : List (String × V)) (k k₂ : String)
    (h : k₂ ≠ k) : mapGet (mapDelete m k) k₂ = mapGet m k₂ := by
  induction m with
  | nil => simp [mapDelete]
  | cons hd tl ih =>
      obtain ⟨k₁, v₁⟩ := hd
      by_cases h₁ : k₁ = k
      · subst h₁
        simp [mapDelete, mapGet, Ne.symm h]
      · simp [mapDelete, mapGet, h₁, ih]

theorem mapDelete_eq_of_get_none {V : Type} (m : List (String × V)) (k : String)
    (h : mapGet m k = none) : mapDelete m k = m := by
  induction m with
  | nil => simp [mapDelete]
  | cons hd tl ih =>
      obtain ⟨k₁, v₁⟩ := hd
      by_cases h₁ : k₁ = k
      · simp [mapGet, h₁] at h
      · simp [mapGet, h₁] at h
        simp [mapDelete, h₁, ih h]

theorem length_mapSet_of_get_none {V : Type} (m : List (String × V)) (k : String) (v : V)
    (h : mapGet m k = none) : (mapSet m k v).length = m.length + 1 := by
  induction m with
  | nil => simp [mapSet]
  | cons hd tl ih =>
      obtain ⟨k₁, v₁⟩ := hd
      by_cases h₁ : k₁ = k
      · simp [mapGet, h₁] at h
      · simp [mapGet, h₁] at h
        simp [mapSet, h₁, ih h]

theorem length_setAdd_of_not_mem (s : List String) (x : String) (h : x ∉ s) :
    (setAdd s x).length = s.length + 1 := by
  simp [setAdd, h]

theorem mem_setAdd_self (s : List String) (x : String) : x ∈ setAdd s x := by
  by_cases h : x ∈ s <;> simp [setAdd, h]

end MetaDesk

namespace MetaDesk

set_option maxRecDepth 10000

/-- Claim C1 counterexample: in a room whose players map is empty (so
session `s` raced with departure) but whose computer `0` exists,
`ComputerAddUserCommand.execute` mutates the room state — the attach
command never consults the players map, so the claimed universal no-op
fails on it. -/
theorem attach_mutates_despite_absent_player :
    mapGet (OfficeState.mk [] [("0", Computer.mk [])] [] []).players "s" = none ∧
    ComputerAddUserCommand.execute (OfficeState.mk [] [("0", Computer.mk [])] [] []) "s" "0"
      ≠ OfficeState.mk [] [("0", Computer.mk [])] [] [] := by
  decide

/-- Claim C1 (amended): the absent-participant no-op holds for
update-position, update-name and append-chat, which look the invoking
session identifier up in the players map; the attach and detach commands
never consult the players map — attach mutates the state whenever the
target object exists and the identifier is not yet attached, and detach
mutates it whenever the identifier is attached, present participant or not. -/
theorem absent_player_noop_scope (st : OfficeState) (sid : String) (x y : Int)
    (anim name content objectId : String) (now : Nat)
    (habs : mapGet st.players sid = none) :
    PlayerUpdateCommand.execute st sid x y anim = st ∧
    PlayerUpdateNameCommand.execute st sid name = st ∧
    ChatMessageUpdateCommand.execute st sid content now = st ∧
    (∀ c, mapGet st.computers objectId = some c → sid ∉ c.connectedUser →
      ComputerAddUserCommand.execute st sid objectId ≠ st) ∧
    (∀ w, mapGet st.whiteboards objectId = some w → sid ∉ w.connectedUser →
      WhiteboardAddUserCommand.execute st sid objectId ≠ st) ∧
    (∀ c, mapGet st.computers objectId = some c → sid ∈ c.connectedUser →
      ComputerRemoveUserCommand.execute st sid objectId ≠ st) ∧
    (∀ w, mapGet st.whiteboards objectId = some w → sid ∈ w.connectedUser →
      WhiteboardRemoveUserCommand.execute st sid objectId ≠ st) := by
  refine ⟨?_, ?_, ?_, ?_, ?_, ?_, ?_⟩
  · simp [PlayerUpdateCommand.execute, habs]
  · simp [PlayerUpdateNameCommand.execute, habs]
  · simp [ChatMessageUpdateCommand.execute, habs]
  · intro c hc hm heq
    have h₁ : mapGet (ComputerAddUserCommand.execute st sid objectId).computers objectId
        = some { c with connectedUser := setAdd c.connectedUser sid } := by
      simp [ComputerAddUserCommand.execute, hc, hm, mapGet_mapSet_self]
    rw [heq, hc] at h₁
    have h₂ : c.connectedUser = setAdd c.connectedUser sid :=
      congrArg Computer.connectedUser (Option.some.inj h₁)
    have h₃ := length_setAdd_of_not_mem c.connectedUser sid hm
    rw [← h₂] at h₃
    omega
  · intro w hw hm heq
    have h₁ : mapGet (WhiteboardAddUserCommand.execute st sid objectId).whiteboards objectId
        = some { w with connectedUser := setAdd w.connectedUser sid } := by
      simp [WhiteboardAddUserCommand.execute, hw, hm, mapGet_mapSet_self]
    rw [heq, hw] at h₁
    have h₂ : w.connectedUser = setAdd w.connectedUser sid :=
      congrArg Whiteboard.connectedUser (Option.some.inj h₁)
    have h₃ := length_setAdd_of_not_mem w.connectedUser sid hm
    rw [← h₂] at h₃
    omega
  · intro c hc hm heq
    have h₁ : mapGet (ComputerRemoveUserCommand.execute st sid objectId).computers objectId
        = some { c with connectedUser := setDelete c.connectedUser sid } := by
      simp [ComputerRemoveUserCommand.execute, hc, hm, mapGet_mapSet_self]
    rw [heq, hc] at h₁
    have h₂ : c.connectedUser = setDelete c.connectedUser sid :=
      congrArg Computer.connectedUser (Option.some.inj h₁)
    have h₃ : (setDelete c.connectedUser sid).length = c.connectedUser.length - 1 :=
      List.length_erase_of_mem hm
    have h₄ : 0 < c.connectedUser.length := List.length_pos_of_mem hm
    rw [← h₂] at h₃
    omega
  · intro w hw hm heq
    have h₁ : mapGet (WhiteboardRemoveUserCommand.execute st sid objectId).whiteboards objectId
        = some { w with connectedUser := setDelete w.connectedUser sid } := by
      simp [WhiteboardRemoveUserCommand.execute, hw, hm, mapGet_mapSet_self]
    rw [heq, hw] at h₁
    have h₂ : w.connectedUser = setDelete w.connectedUser sid :=
      congrArg Whiteboard.connectedUser (Option.some.inj h₁)
    have h₃ : (setDelete w.connectedUser sid).length = w.connectedUser.length - 1 :=
      List.length_erase_of_mem hm
    have h₄ : 0 < w.connectedUser.length := List.length_pos_of_mem hm
    rw [← h₂] at h₃
    omega

/-- Witness for the amended claim C1 at a concrete input: the update-position
command is a no-op on a room whose players map is empty. -/
theorem absent_player_noop_scope_witness :
    PlayerUpdateCommand.execute (OfficeState.mk [] [] [] []) "s" 1 2 "run"
      = OfficeState.mk [] [] [] [] :=
  (absent_player_noop_scope (OfficeState.mk [] [] [] []) "s" 1 2 "run" "n" "hi" "0" 7
    (by decide)).1

end MetaDesk

namespace MetaDesk

set_option maxRecDepth 10000

/-- Claim C2: for an append from a present participant, a log below 100
entries grows by the new entry with all existing entries retained in
order; a log at 100 entries loses exactly its oldest entry before the
append; the length therefore never exceeds 100; and appending 101
sequential entries onto an empty log leaves exactly entries 2-101 in
order, entry 1 evicted. -/
theorem chat_log_bounded_fifo (st : OfficeState) (sid content : String) (now : Nat)
    (p : Player) (hp : mapGet st.players sid = some p) :
    ((st.chatMessages.length < 100 →
        (ChatMessageUpdateCommand.execute st sid content now).chatMessages
          = st.chatMessages ++ [ChatMessage.mk p.name now content]) ∧
     (st.chatMessages.length = 100 →
        (ChatMessageUpdateCommand.execute st sid content now).chatMessages
          = st.chatMessages.tail ++ [ChatMessage.mk p.name now content]) ∧
     (st.chatMessages.length ≤ 100 →
        (ChatMessageUpdateCommand.execute st sid content now).chatMessages.length ≤ 100)) ∧
    ((appendSeq (OfficeState.mk [("s", Player.mk "" 0 0 "" false false)] [] [] [])
        "s" ((List.range 101).map (fun i => toString (i + 1))) 0).chatMessages
      = (List.range 100).map (fun i => ChatMessage.mk "" 0 (toString (i + 2))) ∧
     ChatMessage.mk "" 0 "1"
       ∉ (appendSeq (OfficeState.mk [("s", Player.mk "" 0 0 "" false false)] [] [] [])
           "s" ((List.range 101).map (fun i => toString (i + 1))) 0).chatMessages) := by
  refine ⟨⟨?_, ?_, ?_⟩, by decide, by decide⟩
  · intro hlt
    have hge : ¬ st.chatMessages.length ≥ 100 := by omega
    simp [ChatMessageUpdateCommand.execute, hp, hge]
  · intro heq
    have hge : st.chatMessages.length ≥ 100 := by omega
    simp [ChatMessageUpdateCommand.execute, hp, hge]
  · intro hle
    by_cases hge : st.chatMessages.length ≥ 100
    · simp [ChatMessageUpdateCommand.execute, hp, hge]
      omega
    · simp [ChatMessageUpdateCommand.execute, hp, hge]
      omega

/-- Witness for claim C2 at a concrete input: appending to a one-entry log
of a room whose players map holds the sender retains the old entry and
appends the new one. -/
theorem chat_log_bounded_fifo_witness :
    (ChatMessageUpdateCommand.execute
        (OfficeState.mk [("s", Player.mk "ada" 0 0 "" false false)] [] []
          [ChatMessage.mk "bob" 3 "old"]) "s" "new" 9).chatMessages
      = [ChatMessage.mk "bob" 3 "old"] ++ [ChatMessage.mk "ada" 9 "new"] :=
  ((chat_log_bounded_fifo
      (OfficeState.mk [("s", Player.mk "ada" 0 0 "" false false)] [] []
        [ChatMessage.mk "bob" 3 "old"]) "s" "new" 9
      (Player.mk "ada" 0 0 "" false false) (by decide)).1.1 (by decide))

/-- Claim C3: attaching a session identifier to a computer or whiteboard
twice yields the same `connectedUser` membership as attaching once, and
detaching an identifier that is not currently attached leaves the whole
room state unchanged. -/
theorem attach_detach_idempotent_noop (st : OfficeState) (sid objectId : String) :
    (ComputerAddUserCommand.execute (ComputerAddUserCommand.execute st sid objectId) sid objectId
      = ComputerAddUserCommand.execute st sid objectId) ∧
    (WhiteboardAddUserCommand.execute (WhiteboardAddUserCommand.execute st sid objectId)
        sid objectId
      = WhiteboardAddUserCommand.execute st sid objectId) ∧
    (∀ c, mapGet st.computers objectId = some c → sid ∉ c.connectedUser →
      ComputerRemoveUserCommand.execute st sid objectId = st) ∧
    (∀ w, mapGet st.whiteboards objectId = some w → sid ∉ w.connectedUser →
      WhiteboardRemoveUserCommand.execute st sid objectId = st) := by
  refine ⟨?_, ?_, ?_, ?_⟩
  · cases hc : mapGet st.computers objectId with
    | none => simp [ComputerAddUserCommand.execute, hc]
    | some c =>
        by_cases hm : sid ∈ c.connectedUser
        · simp [ComputerAddUserCommand.execute, hc, hm]
        · simp [ComputerAddUserCommand.execute, hc, hm, mapGet_mapSet_self, mem_setAdd_self]
  · cases hw : mapGet st.whiteboards objectId with
    | none => simp [WhiteboardAddUserCommand.execute, hw]
    | some w =>
        by_cases hm : sid ∈ w.connectedUser
        · simp [WhiteboardAddUserCommand.execute, hw, hm]
        · simp [WhiteboardAddUserCommand.execute, hw, hm, mapGet_mapSet_self, mem_setAdd_self]
  · intro c hc hm
    simp [ComputerRemoveUserCommand.execute, hc, hm]
  · intro w hw hm
    simp [WhiteboardRemoveUserCommand.execute, hw, hm]

/-- Claim C10: `onLeave` removes only the departing session identifier's
entry of the players map; every computer's and whiteboard's
`connectedUser` set and the chat log are left untouched, so a departed
participant's identifier can stay attached to shared objects. -/
theorem onLeave_frame (st : OfficeState) (sid : String) :
    (onLeave st sid).computers = st.computers ∧
    (onLeave st sid).whiteboards = st.whiteboards ∧
    (onLeave st sid).chatMessages = st.chatMessages ∧
    (onLeave st sid).players = mapDelete st.players sid ∧
    (∀ k, k ≠ sid → mapGet (onLeave st sid).players k = mapGet st.players k) := by
  cases hget : mapGet st.players sid with
  | none =>
      have hdel := mapDelete_eq_of_get_none st.players sid hget
      simp [onLeave, mapHas, hget, hdel]
  | some p =>
      refine ⟨by simp [onLeave, mapHas, hget], by simp [onLeave, mapHas, hget],
        by simp [onLeave, mapHas, hget], by simp [onLeave, mapHas, hget], ?_⟩
      intro k hk
      simp [onLeave, mapHas, hget, mapGet_mapDelete_ne st.players sid k hk]

end MetaDesk

namespace Network

/-- Claim C4 counterexample: with the connection not ready (not
Synchronized) but the room object still present, `videoConnected` does
send over the channel and signals no failure to the caller — refuting
both the "sends nothing" and the "immediate local failure" halves of the
claim at this concrete state. -/
theorem videoConnected_sends_when_not_ready :
    (videoConnected (ClientNetState.mk false true false false)).channelSends
      = ["VIDEO_CONNECTED"] ∧
    (videoConnected (ClientNetState.mk false true false false)).failureSignalled = false := by
  decide

/-- Claim C4 (amended): the submission methods guarded by the readiness
flag (updatePlayer, updatePlayerName, readyToConnect) send nothing while
the connection is not ready, but the call is dropped silently — no
failure is signalled to the caller; videoConnected performs no readiness
check at all, sending whenever the room object exists and emitting its
local event unconditionally. -/
theorem unready_submission_silently_dropped (st : ClientNetState) (h : st.ready = false) :
    updatePlayer st = MethodEffect.mk [] [] false ∧
    updatePlayerName st = MethodEffect.mk [] [] false ∧
    readyToConnect st = MethodEffect.mk [] [] false ∧
    videoConnected st = MethodEffect.mk (if st.hasRoom then ["VIDEO_CONNECTED"] else [])
      ["MY_PLAYER_VIDEO_CONNECTED"] false := by
  refine ⟨?_, ?_, ?_, rfl⟩ <;>
    simp [updatePlayer, updatePlayerName, readyToConnect, h]

/-- Witness for the amended claim C4 at a concrete unready state. -/
theorem unready_submission_silently_dropped_witness :
    updatePlayer (ClientNetState.mk false false false false) = MethodEffect.mk [] [] false :=
  (unready_submission_silently_dropped (ClientNetState.mk false false false false) rfl).1

/-- Claim C8 counterexample: when the failed attempt has reached
`maxRetries` (10), `connectWithRetry` does not report a terminal failure
to the caller — it schedules a silent background restart from attempt 1
after a 10-second cool-down. -/
theorem retry_exhaustion_background_restart :
    onConnectAttemptFailure 10 = RetryAction.backgroundRestart 1 10000 ∧
    onConnectAttemptFailure 10 ≠ RetryAction.reportTerminalFailure := by
  refine ⟨rfl, ?_⟩
  intro h
  simp [onConnectAttemptFailure, maxRetries] at h

/-- Claim C8 (amended): a failed attempt below the maximum count retries
with the incremented counter after a deterministic (jitter-free)
exponential delay — 1000 ms for the first retry, then
`min(1000 * 1.5^(attempt-1), 8000)` ms — never exceeding the 8000 ms cap;
reaching the maximum count (10) is not reported as a terminal failure:
a background restart from attempt 1 is scheduled after 10 s. -/
theorem backoff_policy (attempt : Nat) (h₁ : 1 ≤ attempt) (h₂ : attempt < maxRetries) :
    onConnectAttemptFailure attempt
      = RetryAction.retryAfter (attempt + 1) (backoffDelay attempt) ∧
    backoffDelay attempt ≤ 8000 ∧
    (2 ≤ attempt → backoffDelay attempt = min (1000 * (3 / 2 : ℚ) ^ (attempt - 1)) 8000) ∧
    onConnectAttemptFailure maxRetries = RetryAction.backgroundRestart 1 10000 := by
  refine ⟨?_, ?_, ?_, ?_⟩
  · simp [onConnectAttemptFailure, h₂]
  · by_cases ha : attempt = 1
    · subst ha
      simp [backoffDelay]
      norm_num
    · simp only [backoffDelay, if_neg ha]
      exact min_le_right _ _
  · intro h2
    have ha : attempt ≠ 1 := by omega
    simp [backoffDelay, retryDelay, ha]
  · simp [onConnectAttemptFailure, maxRetries]

/-- Witness for the amended claim C8 at attempt 3. -/
theorem backoff_policy_witness :
    onConnectAttemptFailure 3 = RetryAction.retryAfter 4 (backoffDelay 3) :=
  (backoff_policy 3 (by decide) (by decide)).1

end Network

namespace WebRTC

/-- Claim C9: the two snapshots of `replaceInvalidId` (the
`/[^a-zA-Z0-9]/g` version and the case-insensitive `/[^0-9a-z]/gi`
version) compute the same result on every input, and every output code
unit is ASCII alphanumeric, so both sides of a media link derive the same
link address from the same session identifier. -/
theorem replaceInvalidId_snapshots_agree (userId : List Nat) :
    replaceInvalidId userId = replaceInvalidIdCI userId ∧
    (∀ c ∈ replaceInvalidId userId, isAlnumCode c = true) ∧
    (∀ c ∈ replaceInvalidIdCI userId, isAlnumCode c = true) := by
  have hchar : ∀ c : Nat,
      (if isLowerCode c || isUpperCode c || isDigitCode c then c else 71)
        = (if isDigitCode c || isLowerCode (toLowerCode c) then c else 71) := by
    intro c
    unfold isLowerCode isUpperCode isDigitCode toLowerCode
    split_ifs <;> simp_all <;> omega
  have heq : replaceInvalidId userId = replaceInvalidIdCI userId := by
    induction userId with
    | nil => rfl
    | cons hd tl ih =>
        simp only [replaceInvalidId, replaceInvalidIdCI, List.map_cons] at ih ⊢
        rw [hchar hd]
        exact congrArg _ ih
  have halnum : ∀ c ∈ replaceInvalidId userId, isAlnumCode c = true := by
    intro c hc
    simp only [replaceInvalidId, List.mem_map] at hc
    obtain ⟨a, _, rfl⟩ := hc
    by_cases h : (isLowerCode a || isUpperCode a || isDigitCode a) = true
    · simp [isAlnumCode, h]
    · have h71 : (if isLowerCode a || isUpperCode a || isDigitCode a then a else 71) = 71 := by
        simp [h]
      rw [h71]
      decide
  exact ⟨heq, halnum, fun c hc => halnum c (heq ▸ hc)⟩

end WebRTC

namespace MetaDesk

set_option maxRecDepth 10000

/-- Claim C5: with the repository's capacity of 16, a join on an open
(no-secret) room is admitted while the roster holds fewer than 16
participants (growing the roster by one for a fresh session id); at 16
the attempt is rejected with a Capacity error, producing no new state;
and a concrete run admits exactly the first 16 of 17 sequential joins,
the 17th failing with the Capacity error while the roster stays at 16. -/
theorem capacity_sixteen (compare : String → String → Bool) (room : RoomHandle)
    (sid : String) (provided : Option String) (p : Player)
    (hopen : room.password = none) :
    (room.state.players.length < 16 →
      tryJoin compare room sid provided p
        = Except.ok { room with state := onJoin room.state sid p } ∧
      (mapGet room.state.players sid = none →
        (onJoin room.state sid p).players.length = room.state.players.length + 1)) ∧
    (room.state.players.length = 16 →
      tryJoin compare room sid provided p = Except.error JoinError.capacity) ∧
    ((joinAll (fun _ _ => false) (RoomHandle.mk none (OfficeState.mk [] [] [] []))
        ((List.range 16).map (fun i => toString i))).map
          (fun r => r.state.players.length) = Except.ok 16) ∧
    (joinAll (fun _ _ => false) (RoomHandle.mk none (OfficeState.mk [] [] [] []))
        ((List.range 17).map (fun i => toString i)) = Except.error JoinError.capacity) := by
  refine ⟨?_, ?_, by rfl, by rfl⟩
  · intro hlt
    have hcap : ¬ room.state.players.length ≥ maxClients := by
      simp only [maxClients]
      omega
    constructor
    · simp [tryJoin, hcap, onAuth, hopen]
    · intro hfresh
      simpa [onJoin] using length_mapSet_of_get_none room.state.players sid p hfresh
  · intro hfull
    have hcap : room.state.players.length ≥ maxClients := by
      simp only [maxClients]
      omega
    simp [tryJoin, hcap]

/-- Witness for claim C5: the first join on an empty open room succeeds. -/
theorem capacity_sixteen_witness :
    tryJoin (fun _ _ => false) (RoomHandle.mk none (OfficeState.mk [] [] [] [])) "s" none
        (Player.mk "" 0 0 "" false false)
      = Except.ok (RoomHandle.mk none
          (onJoin (OfficeState.mk [] [] [] []) "s" (Player.mk "" 0 0 "" false false))) :=
  ((capacity_sixteen (fun _ _ => false) (RoomHandle.mk none (OfficeState.mk [] [] [] []))
      "s" none (Player.mk "" 0 0 "" false false) rfl).1 (by decide)).1

/-- Claim C6: when a room stores an access secret, an admission attempt
providing no secret fails the authentication step (never an implicit
grant) and no Participant is ever created for it; when a secret is
provided (below capacity), admission succeeds exactly when the comparison
against the stored salted hash succeeds. -/
theorem secret_admission (compare : String → String → Bool) (room : RoomHandle)
    (sid h pw : String) (p : Player) (hpw : room.password = some h) :
    onAuth compare room.password none = false ∧
    (∀ r₂, tryJoin compare room sid none p ≠ Except.ok r₂) ∧
    (room.state.players.length < 16 →
      tryJoin compare room sid (some pw) p
        = if compare pw h then Except.ok { room with state := onJoin room.state sid p }
          else Except.error JoinError.auth) := by
  refine ⟨by simp [onAuth, hpw], ?_, ?_⟩
  · intro r₂ hok
    by_cases hcap : room.state.players.length ≥ maxClients
    · simp [tryJoin, hcap] at hok
    · simp [tryJoin, hcap, onAuth, hpw] at hok
  · intro hlt
    have hcap : ¬ room.state.players.length ≥ maxClients := by
      simp only [maxClients]
      omega
    by_cases hc : compare pw h
    · simp [tryJoin, hcap, onAuth, hpw, hc]
    · simp [tryJoin, hcap, onAuth, hpw, hc]

/-- Witness for claim C6: a secret-protected room rejects a secretless
admission attempt. -/
theorem secret_admission_witness :
    onAuth (fun a b => a == b) (some "hash") none = false :=
  (secret_admission (fun a b => a == b) (RoomHandle.mk (some "hash") (OfficeState.mk [] [] [] []))
    "s" "hash" "pw" (Player.mk "" 0 0 "" false false) rfl).1

/-- Claim C7: whenever `getRoomId` returns, the returned identifier has
exactly 12 characters, each drawn from the fixed 62-character alphabet,
is distinct from every identifier already in the process-wide set
(colliding candidates are retried past), and the returned set registers
exactly it; and the call does return whenever some candidate block yields
a fresh identifier. -/
theorem getRoomId_fresh_registered (used : List String) (stream : List (List Nat))
    (hwf : ∀ draws ∈ stream, draws.length = 12) :
    (∀ res used₂, getRoomId used stream = some (res, used₂) →
      res.length = 12 ∧ (∀ ch ∈ res.data, ch ∈ characters) ∧
      res ∉ used ∧ used₂ = used ++ [res]) ∧
    ((∃ draws ∈ stream, candidateOf draws ∉ used) → (getRoomId used stream).isSome = true) := by
  have hmem : ∀ i : Nat, characters.getD i 'A' ∈ characters := by
    intro i
    by_cases hi : i < characters.length
    · rw [List.getD_eq_getElem characters 'A' hi]
      apply List.getElem_mem
    · rw [List.getD_eq_default characters 'A' (Nat.le_of_not_lt hi)]
      decide
  induction stream with
  | nil =>
      refine ⟨?_, ?_⟩
      · intro res used₂ h
        simp [getRoomId] at h
      · rintro ⟨d, hd, _⟩
        simp at hd
  | cons d rest ih =>
      have hwf₂ : ∀ draws ∈ rest, draws.length = 12 :=
        fun x hx => hwf x (List.mem_cons_of_mem _ hx)
      by_cases hcol : candidateOf d ∈ used
      · refine ⟨?_, ?_⟩
        · intro res used₂ h
          simp only [getRoomId, if_pos hcol] at h
          exact (ih hwf₂).1 res used₂ h
        · rintro ⟨x, hx, hfresh⟩
          rcases List.mem_cons.mp hx with rfl | hx₂
          · exact absurd hcol hfresh
          · simp only [getRoomId, if_pos hcol]
            exact (ih hwf₂).2 ⟨x, hx₂, hfresh⟩
      · refine ⟨?_, ?_⟩
        · intro res used₂ h
          simp only [getRoomId, if_neg hcol, Option.some.injEq, Prod.mk.injEq] at h
          obtain ⟨h₁, h₂⟩ := h
          subst h₁
          subst h₂
          refine ⟨?_, ?_, hcol, ?_⟩
          · have hd12 : d.length = 12 := hwf d (List.mem_cons_self _ _)
            simp [candidateOf, String.length, hd12]
          · intro ch hch
            simp only [candidateOf, List.mem_map] at hch
            obtain ⟨i, _, rfl⟩ := hch
            exact hmem i
          · simp [setAdd, hcol]
        · intro _
          simp [getRoomId, hcol]

/-- Witness for claim C7: with an empty uniqueness set, one block of
twelve zero draws yields an identifier. -/
theorem getRoomId_fresh_registered_witness :
    (getRoomId [] [List.replicate 12 0]).isSome = true :=
  (getRoomId_fresh_registered [] [List.replicate 12 0] (by decide)).2
    ⟨List.replicate 12 0, by decide, by decide⟩

end MetaDesk
